import Mathlib

/-
Verification of the time-series pipeline in `src/paper1_code/utils/time_series.py`
(repository paper1-code).  The module has three stages operating on labeled
arrays: `shift_arrays` (temporal alignment), `mean_flatten` (spatial reduction)
and `remove_seasonality` (frequency-domain band filtering).

The embedding below is a shallow translation of that Python code:
  * numeric data is modelled over `ℚ` (the source works on numpy float arrays;
    none of the properties proved here depends on floating-point rounding);
  * complex spectral values are pairs `ℚ × ℚ` (real and imaginary components);
  * NaN, produced by `xarray.DataArray.shift`, is modelled as `none` in
    `Option ℚ`;
  * exceptions (`ValueError`, `KeyError`, `IndexError`, `TypeError`) are
    modelled with `Except`;
  * an argument the Python code mutates in place (the `dims` list in
    `mean_flatten`, the array data buffer in `_remove_seasonality_fourier`)
    is modelled by returning the argument's final state alongside the result;
  * `scipy.fft.rfft` / `scipy.fft.irfft` are transcendental and cannot be
    computed over `ℚ`; they enter as parameters constrained only by their
    documented output lengths (`n // 2 + 1` and `2 * (m - 1)`), which is all
    the properties below use of them.
-/

set_option allowUnsafeReducibility true
attribute [semireducible] Rat.add Rat.sub Rat.mul Rat.inv

/- ----------------------------------------------------------------------
Seasonality filter: the Fourier-domain band edit of
`_remove_seasonality_fourier` (time_series.py lines 242-284).
---------------------------------------------------------------------- -/

/-- Errors the seasonality filter can raise: `IndexError` from an out-of-range
numpy access, `TypeError` from the time-axis dispatch (the spec calls the
latter the UnsupportedTimeAxis condition). -/
inductive TSError where
  | indexError : TSError
  | typeError : TSError
deriving DecidableEq, Repr

/-- The homogeneous time axis of a labeled array: floating-point offsets,
calendar dates (a `cftime.datetime` is represented by its timestamp in
seconds), or elements of some unsupported type (only their count matters). -/
inductive TimeAxis where
  | floats : List ℚ → TimeAxis
  | dates : List ℤ → TimeAxis
  | unsupported : ℕ → TimeAxis
deriving DecidableEq, Repr

/-- Number of samples on the time axis (`len(arr.time.data)`). -/
def TimeAxis.len : TimeAxis → ℕ
  | .floats l => l.length
  | .dates l => l.length
  | .unsupported n => n

/-- A labeled 1-D time-series array as the seasonality filter sees it:
numeric data, the time coordinate and the attribute map. -/
structure TSArr where
  data : List ℚ
  time : TimeAxis
  attrs : List (String × String)
deriving DecidableEq, Repr

/-- time_series.py lines 242-256: the sampling interval in years.  Floats: the
difference of the first two samples (`data[1] - data[0]`, an `IndexError` on a
single-sample axis).  Dates: `(data[11] - data[10]).total_seconds()` over the
seconds of a year, read unconditionally (an `IndexError` when the axis is
shorter; note `data[0]` is read first by the isinstance dispatch, so an empty
axis is an `IndexError` too).  Anything else: the `TypeError` of lines 252-256. -/
def sampleSpacing : TimeAxis → Except TSError ℚ
  | .floats ts =>
    match ts.get? 0, ts.get? 1 with
    | some a, some b => .ok (b - a)
    | _, _ => .error .indexError
  | .dates ts =>
    match ts.get? 0 with
    | none => .error .indexError
    | some _ =>
      match ts.get? 10, ts.get? 11 with
      | some a, some b => .ok (((b - a : ℤ) : ℚ) / (3600 * 24 * 365))
      | _, _ => .error .indexError
  | .unsupported n => if n = 0 then .error .indexError else .error .typeError

/-- `scipy.fft.rfftfreq n d`: the one-sided frequency bins
`[0, 1, ..., n / 2] / (d * n)`. -/
def rfftfreq (n : ℕ) (d : ℚ) : List ℚ :=
  (List.range (n / 2 + 1)).map (fun k : ℕ => (k : ℚ) / ((n : ℚ) * d))

/-- time_series.py line 260: the indices of the frequency bins strictly inside
the open band `(freq - radius, freq + radius)` (`np.argwhere` on the
conjunction of the two strict comparisons), in increasing order. -/
def bandIdx (xf : List ℚ) (freq radius : ℚ) : List ℕ :=
  (xf.enum.filter
      (fun p => decide (freq - radius < p.2) && decide (p.2 < freq + radius))).map
    Prod.fst

/-- `np.linspace a b num` for complex endpoints, componentwise: `num` evenly
spaced values from `a` to `b`, both endpoints included; a single requested
value is the start point `a`. -/
def linspace (a b : ℚ × ℚ) (num : ℕ) : List (ℚ × ℚ) :=
  if num = 1 then [a]
  else
    (List.range num).map (fun k : ℕ =>
      (a.1 + (b.1 - a.1) * (k : ℚ) / ((num : ℚ) - 1),
       a.2 + (b.2 - a.2) * (k : ℚ) / ((num : ℚ) - 1)))

/-- numpy integer indexing: a non-negative index reads directly, a negative
index wraps once from the end, anything out of range is an `IndexError`
(here: `none`). -/
def npGet {α : Type} (l : List α) (i : ℤ) : Option α :=
  if 0 ≤ i then l.get? i.toNat
  else if -(l.length : ℤ) ≤ i then l.get? (i + (l.length : ℤ)).toNat
  else none

/-- numpy fancy-index assignment `l[idx] = vals`, assigning `vals` to the
positions of `idx` one by one. -/
def assignAt {α : Type} : List α → List ℕ → List α → List α
  | l, i :: is, v :: vs => assignAt (l.set i v) is vs
  | l, _, _ => l

/-- time_series.py lines 260-275, the spectral band edit.  `idx` is the list
of in-band bin indices.  The guard is the source's `if any(idx):` — Python's
`any` over the 2-D `argwhere` result is true exactly when some index in it is
nonzero, not when the list is nonempty.  On the true branch the values at the
in-band bins are overwritten with `np.linspace` between `yf[idx[0] - 1]`
(numpy wraps the `-1` that arises when bin 0 is in the band) and
`yf[idx[-1] + 1]` (an `IndexError` when the band reaches the last bin).  On
the false branch the spectrum is returned unchanged together with the printed
warning (the returned `Bool` is true exactly when the warning is printed). -/
def removeBand (xf : List ℚ) (yf : List (ℚ × ℚ)) (freq radius : ℚ) :
    Except TSError (List (ℚ × ℚ) × Bool) :=
  let idx := bandIdx xf freq radius
  if idx.any (fun k => decide (k ≠ 0)) then
    match npGet yf ((idx.headD 0 : ℤ) - 1), npGet yf ((idx.getLastD 0 : ℤ) + 1) with
    | some a, some b => .ok (assignAt yf idx (linspace a b idx.length), false)
    | _, _ => .error .indexError
  else
    .ok (yf, true)

/-- numpy slice assignment `data[: len(vals)] = vals`: the leading values are
overwritten, the tail beyond `vals` is kept. -/
def sliceAssign (data vals : List ℚ) : List ℚ :=
  vals.take data.length ++ data.drop vals.length

/-- time_series.py lines 242-284, `_remove_seasonality_fourier`, with the two
scipy transforms as parameters: compute the sampling interval, transform,
edit the band, inverse-transform and overwrite the leading
`len(new_f_clean)` data values in place.  The returned `Bool` records
whether the empty-band warning was printed.  The result's content is also the
final content of the caller's array object (`arr.data[...] = ...` writes the
buffer in place and `arr[:]` returns a view of it). -/
def remove_seasonality_fourier (rfft : List ℚ → List (ℚ × ℚ))
    (irfft : List (ℚ × ℚ) → List ℚ) (arr : TSArr) (freq radius : ℚ) :
    Except TSError (TSArr × Bool) :=
  match sampleSpacing arr.time with
  | .error e => .error e
  | .ok d =>
    let n := arr.time.len
    let yf := rfft arr.data
    let xf := rfftfreq n d
    match removeBand xf yf freq radius with
    | .error e => .error e
    | .ok (yf_clean, warned) =>
      .ok ({ arr with data := sliceAssign arr.data (irfft yf_clean) }, warned)

/-- Models `arr[:]` on a 1-D DataArray: a fresh wrapper over the same buffer,
hence the same content. -/
def sliceFull (a : TSArr) : TSArr := a

/-- time_series.py lines 207-208: the single-array entry point of
`remove_seasonality` passes `arrays.copy()` (a deep copy) to the Fourier
helper, so the caller's object keeps its original content.  The second
component of the result is the final content of the caller's argument. -/
def remove_seasonality_single (rfft : List ℚ → List (ℚ × ℚ))
    (irfft : List (ℚ × ℚ) → List ℚ) (arr : TSArr) (freq radius : ℚ) :
    Except TSError (TSArr × TSArr) :=
  match remove_seasonality_fourier rfft irfft arr freq radius with
  | .ok (r, _) => .ok (sliceFull r, arr)
  | .error e => .error e

/-- time_series.py lines 209-213: the list entry point copies the list
(`arrays[:]`) but passes each element itself to the Fourier helper, which
overwrites the element's data buffer in place; so each input object's final
content coincides with the corresponding returned array.  First component:
the returned list; second: the final contents of the caller's input objects. -/
def remove_seasonality_list (rfft : List ℚ → List (ℚ × ℚ))
    (irfft : List (ℚ × ℚ) → List ℚ) :
    List TSArr → ℚ → ℚ → Except TSError (List TSArr × List TSArr)
  | [], _, _ => .ok ([], [])
  | arr :: rest, freq, radius =>
    match remove_seasonality_fourier rfft irfft arr freq radius with
    | .error e => .error e
    | .ok (r, _) =>
      match remove_seasonality_list rfft irfft rest freq radius with
      | .error e => .error e
      | .ok (rs, sts) => .ok (sliceFull r :: rs, r :: sts)

/-- Stand-in for `scipy.fft.rfft` used in closed instances: it has the
documented output length `n // 2 + 1`; its numeric values play no role in any
property proved here. -/
def rfftStub (x : List ℚ) : List (ℚ × ℚ) :=
  List.replicate (x.length / 2 + 1) (0, 0)

/-- Stand-in for `scipy.fft.irfft` (no length argument, as in the source):
output length `2 * (m - 1)` for an `m`-bin one-sided spectrum. -/
def irfftStub (y : List (ℚ × ℚ)) : List ℚ :=
  List.replicate (2 * (y.length - 1)) 0

example : bandIdx [0, 1/4, 1/2] (1/10) (3/25) = [0] := by decide

example : bandIdx [0, 3, 6] 3 1 = [1] := by decide

example :
    removeBand [0, 3, 6] [(1, 0), (2, 0), (5, 0)] 3 1 =
      .ok ([(1, 0), (1, 0), (5, 0)], false) := rfl

example :
    removeBand [0, 1/4, 1/2] [(1, 0), (2, 0), (3, 0)] (1/10) (3/25) =
      .ok ([(1, 0), (2, 0), (3, 0)], true) := rfl

/- ----------------------------------------------------------------------
Facts about the band edit, leading to the claim C2 theorems.
---------------------------------------------------------------------- -/

/-- The in-band indices are listed in strictly increasing order
(`np.argwhere` scans the frequency array in order). -/
lemma bandIdx_pairwise (xf : List ℚ) (freq radius : ℚ) :
    (bandIdx xf freq radius).Pairwise (· < ·) := by
  unfold bandIdx
  refine List.Pairwise.sublist ((List.filter_sublist _).map _) ?_
  rw [List.enum_map_fst]
  exact List.pairwise_lt_range _

/-- Every in-band index is an index of the frequency array. -/
lemma bandIdx_mem_lt (xf : List ℚ) (freq radius : ℚ) :
    ∀ k ∈ bandIdx xf freq radius, k < xf.length := by
  intro k hk
  unfold bandIdx at hk
  obtain ⟨p, hp, rfl⟩ := List.mem_map.mp hk
  have hmem : p ∈ xf.enum := List.mem_of_mem_filter hp
  have := List.mem_enum_iff_getElem?.mp hmem
  obtain ⟨h, -⟩ := List.getElem?_eq_some_iff.mp this
  exact h

lemma linspace_length (a b : ℚ × ℚ) (num : ℕ) : (linspace a b num).length = num := by
  unfold linspace
  by_cases h : num = 1
  · rw [if_pos h, h]; rfl
  · rw [if_neg h, List.length_map, List.length_range]

lemma assignAt_length {α : Type} (idx : List ℕ) :
    ∀ (l vals : List α), (assignAt l idx vals).length = l.length := by
  induction idx with
  | nil => intro l vals; cases vals <;> rfl
  | cons i is ih =>
    intro l vals
    cases vals with
    | nil => rfl
    | cons v vs => rw [assignAt, ih, List.length_set]

/-- Positions outside the assigned index list are untouched. -/
lemma assignAt_getElem?_not_mem {α : Type} (idx : List ℕ) :
    ∀ (l vals : List α) (k : ℕ), k ∉ idx → (assignAt l idx vals)[k]? = l[k]? := by
  induction idx with
  | nil => intro l vals k _; cases vals <;> rfl
  | cons i is ih =>
    intro l vals k hk
    cases vals with
    | nil => rfl
    | cons v vs =>
      have hik : i ≠ k := by
        intro h
        exact hk (by rw [← h]; exact List.mem_cons_self _ _)
      rw [assignAt, ih (l.set i v) vs k (fun h => hk (List.mem_cons_of_mem _ h))]
      exact List.getElem?_set_ne hik

/-- With strictly increasing indices and matching lengths, the `j`-th assigned
position holds the `j`-th value. -/
lemma assignAt_getElem?_mem {α : Type} (idx : List ℕ) :
    ∀ (l vals : List α), idx.Pairwise (· < ·) → vals.length = idx.length →
      ∀ j, j < idx.length → idx.getD j 0 < l.length →
        (assignAt l idx vals)[idx.getD j 0]? = vals[j]? := by
  induction idx with
  | nil => intro l vals _ _ j hj; exact absurd hj (Nat.not_lt_zero j)
  | cons i is ih =>
    intro l vals hp hv j hj hlt
    rcases List.pairwise_cons.mp hp with ⟨hi, his⟩
    cases vals with
    | nil => simp at hv
    | cons v vs =>
      rw [assignAt]
      cases j with
      | zero =>
        rw [List.getD_cons_zero] at hlt ⊢
        have hnot : i ∉ is := fun h => absurd (hi i h) (lt_irrefl i)
        rw [assignAt_getElem?_not_mem is _ _ i hnot]
        simpa using List.getElem?_set_self hlt
      | succ j2 =>
        rw [List.getD_cons_succ] at hlt ⊢
        have hj2 : j2 < is.length := by simpa using hj
        have hv2 : vs.length = is.length := by simpa using hv
        have hlt2 : is.getD j2 0 < (l.set i v).length := by
          rw [List.length_set]; exact hlt
        simpa using ih (l.set i v) vs his hv2 j2 hj2 hlt2

/-- A nonempty list's `getLastD 0` is one of its elements. -/
lemma getLastD_mem_of_ne_nil (idx : List ℕ) (hne : idx ≠ []) :
    idx.getLastD 0 ∈ idx := by
  cases idx with
  | nil => exact absurd rfl hne
  | cons c t =>
    have h1 : (c :: t).getLastD 0 = t.getLastD c := List.getLastD_cons 0 c t
    rw [h1]
    exact List.getLastD_mem_cons t c

/-- In a strictly increasing list every element is at most the last element. -/
lemma le_getLast?_of_pairwise (idx : List ℕ) (hp : idx.Pairwise (· < ·)) :
    ∀ k ∈ idx, ∀ m, idx.getLast? = some m → k ≤ m := by
  induction idx with
  | nil => simp
  | cons a t ih =>
    intro k hk m hm
    rcases List.pairwise_cons.mp hp with ⟨ha, ht⟩
    cases t with
    | nil =>
      simp at hm hk
      omega
    | cons b t2 =>
      rw [List.getLast?_cons_cons] at hm
      rcases List.mem_cons.mp hk with rfl | hk2
      · have hmem : m ∈ b :: t2 := by
          have h2 := List.getLast?_eq_getLast (b :: t2) (by simp)
          rw [h2] at hm
          have : (b :: t2).getLast (by simp) = m := by
            injection hm
          rw [← this]
          exact List.getLast_mem _
        exact le_of_lt (ha m hmem)
      · exact ih ht k hk2 m hm

/-- In a strictly increasing nonempty list every element is at most
`getLastD 0`. -/
lemma le_getLastD_of_pairwise (idx : List ℕ) (hp : idx.Pairwise (· < ·))
    (hne : idx ≠ []) : ∀ k ∈ idx, k ≤ idx.getLastD 0 := by
  intro k hk
  obtain ⟨m, hm⟩ : ∃ m, idx.getLast? = some m := by
    cases h : idx.getLast? with
    | none => exact absurd (List.getLast?_eq_none_iff.mp h) hne
    | some m => exact ⟨m, rfl⟩
  rw [List.getLastD_eq_getLast?, hm]
  exact le_getLast?_of_pairwise idx hp k hk m hm

/-- An index strictly inside the list bounds is readable by `npGet`; a
negative one wraps. -/
lemma npGet_eq_some {α : Type} (l : List α) (i : ℤ)
    (h1 : -(l.length : ℤ) ≤ i) (h2 : i < l.length) :
    ∃ a, npGet l i = some a := by
  unfold npGet
  by_cases h0 : 0 ≤ i
  · rw [if_pos h0]
    have hb : i.toNat < l.length := by omega
    exact ⟨l[i.toNat], by rw [List.get?_eq_getElem?, List.getElem?_eq_getElem hb]⟩
  · rw [if_neg h0, if_pos h1]
    have hb : (i + (l.length : ℤ)).toNat < l.length := by omega
    exact ⟨l[(i + (l.length : ℤ)).toNat],
      by rw [List.get?_eq_getElem?, List.getElem?_eq_getElem hb]⟩

/-- Claim C2, counterexample.  With four monthly samples (`d = 1`,
`xf = [0, 1/4, 1/2]`), `freq = 1/10` and `radius = 3/25` the open band
`(-1/50, 11/50)` contains exactly the frequency bin 0, yet `removeBand`
prints the empty-band warning and returns the spectrum unmodified: Python's
`any` over `argwhere`'s rows is false when the only in-band index is 0, so
the claimed replacement does not happen and the warning is emitted although
the band is nonempty. -/
theorem remove_band_zero_bin_counterexample :
    bandIdx [0, 1/4, 1/2] (1/10) (3/25) = [0] ∧
    removeBand [0, 1/4, 1/2] [(1, 0), (2, 0), (3, 0)] (1/10) (3/25) =
      .ok ([(1, 0), (2, 0), (3, 0)], true) := by
  constructor
  · decide
  · rfl

/-- Claim C2, amended.  The spectrum is left unmodified with the warning
exactly when no frequency bin with nonzero index lies in the open band
(`any(idx)` is Python truthiness of the indices, not nonemptiness); when some
nonzero-index bin is in the band and the bin above the band exists, the values
at all in-band bins are replaced by the `np.linspace` interpolation between
the spectral value below the first in-band bin (cyclically, when that bin is
bin 0) and the value above the last in-band bin, all other bins unchanged. -/
theorem remove_band_characterization (xf : List ℚ) (yf : List (ℚ × ℚ))
    (freq radius : ℚ) :
    ((bandIdx xf freq radius).any (fun k => decide (k ≠ 0)) = false ↔
      removeBand xf yf freq radius = .ok (yf, true)) ∧
    ((bandIdx xf freq radius).any (fun k => decide (k ≠ 0)) = true →
      (bandIdx xf freq radius).getLastD 0 + 1 < yf.length →
      ∃ out a b,
        removeBand xf yf freq radius = .ok (out, false) ∧
        npGet yf (((bandIdx xf freq radius).headD 0 : ℤ) - 1) = some a ∧
        npGet yf (((bandIdx xf freq radius).getLastD 0 : ℤ) + 1) = some b ∧
        out.length = yf.length ∧
        (∀ k, k ∉ bandIdx xf freq radius → out[k]? = yf[k]?) ∧
        (∀ j, j < (bandIdx xf freq radius).length →
          out[(bandIdx xf freq radius).getD j 0]? =
            (linspace a b (bandIdx xf freq radius).length)[j]?)) := by
  constructor
  · constructor
    · intro h
      simp only [removeBand]
      split
      · rename_i hg
        rw [h] at hg
        exact absurd hg Bool.false_ne_true
      · rfl
    · intro h
      by_contra hfalse
      have hany : (bandIdx xf freq radius).any (fun k => decide (k ≠ 0)) = true := by
        revert hfalse
        cases (bandIdx xf freq radius).any (fun k => decide (k ≠ 0)) <;> simp
      simp only [removeBand] at h
      split at h
      · split at h <;> simp_all
      · simp_all
  · intro hany hup
    have hpw := bandIdx_pairwise xf freq radius
    have hne : bandIdx xf freq radius ≠ [] := by
      intro h0
      rw [h0] at hany
      simp at hany
    have hlastmem := getLastD_mem_of_ne_nil _ hne
    have hlast_lt : (bandIdx xf freq radius).getLastD 0 < yf.length := by omega
    have hhead_mem : (bandIdx xf freq radius).headD 0 ∈ bandIdx xf freq radius := by
      cases hidx : bandIdx xf freq radius with
      | nil => exact absurd hidx hne
      | cons c t => simp
    have hhead_le := le_getLastD_of_pairwise _ hpw hne _ hhead_mem
    obtain ⟨a, ha⟩ :=
      npGet_eq_some yf (((bandIdx xf freq radius).headD 0 : ℤ) - 1)
        (by omega) (by omega)
    obtain ⟨b, hb⟩ :=
      npGet_eq_some yf (((bandIdx xf freq radius).getLastD 0 : ℤ) + 1)
        (by omega) (by omega)
    refine ⟨assignAt yf (bandIdx xf freq radius)
        (linspace a b (bandIdx xf freq radius).length), a, b, ?_, ha, hb, ?_, ?_, ?_⟩
    · simp only [removeBand]
      split
      · rw [ha, hb]
      · simp_all
    · rw [assignAt_length]
    · intro k hk
      exact assignAt_getElem?_not_mem _ _ _ _ hk
    · intro j hj
      apply assignAt_getElem?_mem _ _ _ hpw (by rw [linspace_length]) j hj
      have hmem : (bandIdx xf freq radius).getD j 0 ∈ bandIdx xf freq radius := by
        rw [List.getD_eq_getElem _ 0 hj]
        exact List.getElem_mem hj
      have := le_getLastD_of_pairwise _ hpw hne _ hmem
      omega

/-- Claim C2, witness: at `xf = [0, 3, 6]`, `freq = 3`, `radius = 1` the band
holds exactly bin 1, a nonzero index, and the bin above the band exists, so
the replacement branch of the amended statement is realized. -/
theorem remove_band_characterization_witness :
    ((bandIdx [0, 3, 6] 3 1).any (fun k => decide (k ≠ 0)) = true ∧
      (bandIdx [0, 3, 6] 3 1).getLastD 0 + 1 <
        ([(1, 0), (2, 0), (5, 0)] : List (ℚ × ℚ)).length) ∧
    (((bandIdx [0, 3, 6] 3 1).any (fun k => decide (k ≠ 0)) = false ↔
        removeBand [0, 3, 6] [(1, 0), (2, 0), (5, 0)] 3 1 =
          .ok ([(1, 0), (2, 0), (5, 0)], true)) ∧
      ((bandIdx [0, 3, 6] 3 1).any (fun k => decide (k ≠ 0)) = true →
        (bandIdx [0, 3, 6] 3 1).getLastD 0 + 1 <
          ([(1, 0), (2, 0), (5, 0)] : List (ℚ × ℚ)).length →
        ∃ out a b,
          removeBand [0, 3, 6] [(1, 0), (2, 0), (5, 0)] 3 1 = .ok (out, false) ∧
          npGet ([(1, 0), (2, 0), (5, 0)] : List (ℚ × ℚ))
            (((bandIdx [0, 3, 6] 3 1).headD 0 : ℤ) - 1) = some a ∧
          npGet ([(1, 0), (2, 0), (5, 0)] : List (ℚ × ℚ))
            (((bandIdx [0, 3, 6] 3 1).getLastD 0 : ℤ) + 1) = some b ∧
          out.length = ([(1, 0), (2, 0), (5, 0)] : List (ℚ × ℚ)).length ∧
          (∀ k, k ∉ bandIdx [0, 3, 6] 3 1 →
            out[k]? = ([(1, 0), (2, 0), (5, 0)] : List (ℚ × ℚ))[k]?) ∧
          (∀ j, j < (bandIdx [0, 3, 6] 3 1).length →
            out[(bandIdx [0, 3, 6] 3 1).getD j 0]? =
              (linspace a b (bandIdx [0, 3, 6] 3 1).length)[j]?))) :=
  ⟨by decide, remove_band_characterization [0, 3, 6] [(1, 0), (2, 0), (5, 0)] 3 1⟩

/-- The band edit never changes the number of spectral bins. -/
lemma removeBand_ok_length (xf : List ℚ) (yf : List (ℚ × ℚ)) (freq radius : ℚ)
    (yc : List (ℚ × ℚ)) (w : Bool) (h : removeBand xf yf freq radius = .ok (yc, w)) :
    yc.length = yf.length := by
  simp only [removeBand] at h
  split at h
  · split at h
    · simp only [Except.ok.injEq, Prod.mk.injEq] at h
      rcases h with ⟨h1, -⟩
      rw [← h1, assignAt_length]
    · simp at h
  · simp only [Except.ok.injEq, Prod.mk.injEq] at h
    rcases h with ⟨h1, -⟩
    rw [← h1]

lemma sliceAssign_length (data vals : List ℚ) (h : vals.length ≤ data.length) :
    (sliceAssign data vals).length = data.length := by
  simp only [sliceAssign, List.length_append, List.length_take, List.length_drop]
  omega

/-- Claim C3, counterexample.  On a five-sample series the one-sided spectrum
has three bins and `scipy.fft.irfft` without a length argument returns
`2 * (3 - 1) = 4` samples, so only the first four of the five data values are
overwritten: the final value 7 survives, and the inverse transform does not
have the length of the input.  (The two stand-in transforms have exactly the
documented scipy output lengths, which is all this computation depends on.) -/
theorem fourier_inverse_length_counterexample :
    remove_seasonality_fourier rfftStub irfftStub
        ⟨[1, 2, 3, 4, 7], .floats [0, 1, 2, 3, 4], [("ensemble", "ens1")]⟩
        1 (1/100) =
      .ok (⟨[0, 0, 0, 0, 7], .floats [0, 1, 2, 3, 4], [("ensemble", "ens1")]⟩,
        true) ∧
    (irfftStub (rfftStub [1, 2, 3, 4, 7])).length = 4 ∧
    ([1, 2, 3, 4, 7] : List ℚ).length = 5 := by
  exact ⟨rfl, rfl, rfl⟩

/-- Claim C3, amended.  For any transforms with the documented scipy output
lengths (`rfft`: `n / 2 + 1` bins, `irfft`: `2 * (m - 1)` samples), a
successful run of the Fourier helper leaves the time coordinate and the
attribute map unchanged and keeps the data length; the inverse transform has
length `2 * (n / 2)` — all `n` values are overwritten when `n` is even, but
for odd `n` the last data value is left unmodified. -/
theorem fourier_overwrite_characterization
    (rfft : List ℚ → List (ℚ × ℚ)) (irfft : List (ℚ × ℚ) → List ℚ)
    (hr : ∀ x, (rfft x).length = x.length / 2 + 1)
    (hi : ∀ y, (irfft y).length = 2 * (y.length - 1))
    (arr : TSArr) (freq radius : ℚ) (r : TSArr) (warned : Bool)
    (hok : remove_seasonality_fourier rfft irfft arr freq radius = .ok (r, warned)) :
    r.time = arr.time ∧ r.attrs = arr.attrs ∧
    r.data.length = arr.data.length ∧
    ∃ v : List ℚ, v.length = 2 * (arr.data.length / 2) ∧
      r.data = v ++ arr.data.drop (2 * (arr.data.length / 2)) := by
  simp only [remove_seasonality_fourier] at hok
  split at hok
  · simp at hok
  · split at hok
    · simp at hok
    · rename_i d hd yc w heq
      simp only [Except.ok.injEq, Prod.mk.injEq] at hok
      rcases hok with ⟨h1, -⟩
      have hlen_yc : yc.length = (rfft arr.data).length :=
        removeBand_ok_length _ _ _ _ _ _ heq
      have hlen_v : (irfft yc).length = 2 * (arr.data.length / 2) := by
        rw [hi, hlen_yc, hr]
        simp
      have hle : (irfft yc).length ≤ arr.data.length := by
        rw [hlen_v]
        omega
      subst h1
      refine ⟨rfl, rfl, sliceAssign_length _ _ hle, irfft yc, hlen_v, ?_⟩
      show sliceAssign arr.data (irfft yc) = _
      rw [sliceAssign, List.take_of_length_le hle, hlen_v]

/-- Claim C3, witness: a four-sample (even-length) run through the Fourier
helper with the stand-in transforms; the hypotheses of the characterization
are discharged concretely and the overwrite covers all four values. -/
theorem fourier_overwrite_characterization_witness :
    ((∀ x : List ℚ, (rfftStub x).length = x.length / 2 + 1) ∧
      (∀ y : List (ℚ × ℚ), (irfftStub y).length = 2 * (y.length - 1)) ∧
      remove_seasonality_fourier rfftStub irfftStub
          ⟨[1, 2, 3, 4], .floats [0, 1, 2, 3], [("ensemble", "ens1")]⟩ 1 (1/100) =
        .ok (⟨[0, 0, 0, 0], .floats [0, 1, 2, 3], [("ensemble", "ens1")]⟩, true)) ∧
    ((⟨[0, 0, 0, 0], .floats [0, 1, 2, 3], [("ensemble", "ens1")]⟩ : TSArr).time =
        (⟨[1, 2, 3, 4], .floats [0, 1, 2, 3], [("ensemble", "ens1")]⟩ : TSArr).time ∧
      (⟨[0, 0, 0, 0], .floats [0, 1, 2, 3], [("ensemble", "ens1")]⟩ : TSArr).attrs =
        (⟨[1, 2, 3, 4], .floats [0, 1, 2, 3], [("ensemble", "ens1")]⟩ : TSArr).attrs ∧
      (⟨[0, 0, 0, 0], .floats [0, 1, 2, 3], [("ensemble", "ens1")]⟩ : TSArr).data.length =
        (⟨[1, 2, 3, 4], .floats [0, 1, 2, 3], [("ensemble", "ens1")]⟩ : TSArr).data.length ∧
      ∃ v : List ℚ,
        v.length =
          2 * ((⟨[1, 2, 3, 4], .floats [0, 1, 2, 3], [("ensemble", "ens1")]⟩ :
            TSArr).data.length / 2) ∧
        (⟨[0, 0, 0, 0], .floats [0, 1, 2, 3], [("ensemble", "ens1")]⟩ : TSArr).data =
          v ++ (⟨[1, 2, 3, 4], .floats [0, 1, 2, 3], [("ensemble", "ens1")]⟩ :
            TSArr).data.drop
            (2 * ((⟨[1, 2, 3, 4], .floats [0, 1, 2, 3], [("ensemble", "ens1")]⟩ :
              TSArr).data.length / 2))) :=
  by
  have hok : remove_seasonality_fourier rfftStub irfftStub
      ⟨[1, 2, 3, 4], .floats [0, 1, 2, 3], [("ensemble", "ens1")]⟩ 1 (1/100) =
      .ok (⟨[0, 0, 0, 0], .floats [0, 1, 2, 3], [("ensemble", "ens1")]⟩, true) := rfl
  exact ⟨⟨fun x => by simp [rfftStub], fun y => by simp [irfftStub], hok⟩,
    fourier_overwrite_characterization rfftStub irfftStub
      (fun x => by simp [rfftStub]) (fun y => by simp [irfftStub])
      ⟨[1, 2, 3, 4], .floats [0, 1, 2, 3], [("ensemble", "ens1")]⟩ 1 (1/100)
      ⟨[0, 0, 0, 0], .floats [0, 1, 2, 3], [("ensemble", "ens1")]⟩ true hok⟩

/-- In the list path every returned array's content is exactly the final
content of the corresponding input object (the Fourier helper wrote the
filtered data through the shared buffer), and the returned list has the
length of the input list. -/
lemma remove_seasonality_list_states (rfft : List ℚ → List (ℚ × ℚ))
    (irfft : List (ℚ × ℚ) → List ℚ) (freq radius : ℚ) :
    ∀ (arrays out states : List TSArr),
      remove_seasonality_list rfft irfft arrays freq radius = .ok (out, states) →
      states = out ∧ out.length = arrays.length := by
  intro arrays
  induction arrays with
  | nil =>
    intro out states h
    simp only [remove_seasonality_list, Except.ok.injEq, Prod.mk.injEq] at h
    rcases h with ⟨h1, h2⟩
    rw [← h1, ← h2]
    exact ⟨rfl, rfl⟩
  | cons a rest ih =>
    intro out states h
    simp only [remove_seasonality_list] at h
    split at h
    · simp at h
    · split at h
      · simp at h
      · rename_i hrest
        simp only [Except.ok.injEq, Prod.mk.injEq] at h
        rcases h with ⟨h1, h2⟩
        rename_i r w heq rs sts
        obtain ⟨ih1, ih2⟩ := ih rs sts hrest
        rw [← h1, ← h2, sliceFull, ih1]
        refine ⟨rfl, ?_⟩
        simp [ih2]

/-- Claim C4, counterexample.  One array through the list path of
`remove_seasonality` (band `(2, 4)` around `freq = 3`, which is edited): the
final content of the caller's input object differs from what the caller put
in — the filtered data was written into the input array's buffer in place, so
the input list's array is not left unchanged. -/
theorem seasonality_list_mutation_counterexample :
    remove_seasonality_list rfftStub irfftStub
        [⟨[1, 2, 3, 4], .floats [0, 1/12, 2/12, 3/12], [("ensemble", "ens1")]⟩]
        3 1 =
      .ok ([⟨[0, 0, 0, 0], .floats [0, 1/12, 2/12, 3/12], [("ensemble", "ens1")]⟩],
        [⟨[0, 0, 0, 0], .floats [0, 1/12, 2/12, 3/12], [("ensemble", "ens1")]⟩]) ∧
    ([⟨[0, 0, 0, 0], .floats [0, 1/12, 2/12, 3/12], [("ensemble", "ens1")]⟩] :
        List TSArr) ≠
      [⟨[1, 2, 3, 4], .floats [0, 1/12, 2/12, 3/12], [("ensemble", "ens1")]⟩] := by
  constructor
  · rfl
  · decide

/-- Claim C4, amended.  The single-array path deep-copies its input, so the
caller's array keeps its original content; the list path returns a fresh list,
but each input array's numeric data is overwritten in place, so after the call
the input objects hold exactly the returned filtered arrays (and the returned
list has the input list's length). -/
theorem seasonality_aliasing (rfft : List ℚ → List (ℚ × ℚ))
    (irfft : List (ℚ × ℚ) → List ℚ) (freq radius : ℚ)
    (arrays out states : List TSArr) (arr r st : TSArr)
    (hl : remove_seasonality_list rfft irfft arrays freq radius = .ok (out, states))
    (hs : remove_seasonality_single rfft irfft arr freq radius = .ok (r, st)) :
    states = out ∧ out.length = arrays.length ∧ st = arr := by
  obtain ⟨h1, h2⟩ :=
    remove_seasonality_list_states rfft irfft freq radius arrays out states hl
  refine ⟨h1, h2, ?_⟩
  simp only [remove_seasonality_single] at hs
  split at hs
  · simp only [Except.ok.injEq, Prod.mk.injEq] at hs
    exact hs.2.symm
  · simp at hs

/-- Claim C4, witness: the amended statement at a concrete one-element batch;
the single path leaves the caller's array as it was, the list path hands the
filtered content back as the input object's final state. -/
theorem seasonality_aliasing_witness :
    ([⟨[0, 0, 0, 0], .floats [0, 1/12, 2/12, 3/12], [("ensemble", "ens1")]⟩] :
        List TSArr) =
      [⟨[0, 0, 0, 0], .floats [0, 1/12, 2/12, 3/12], [("ensemble", "ens1")]⟩] ∧
    ([⟨[0, 0, 0, 0], .floats [0, 1/12, 2/12, 3/12], [("ensemble", "ens1")]⟩] :
        List TSArr).length =
      ([⟨[1, 2, 3, 4], .floats [0, 1/12, 2/12, 3/12], [("ensemble", "ens1")]⟩] :
        List TSArr).length ∧
    (⟨[1, 2, 3, 4], .floats [0, 1/12, 2/12, 3/12], [("ensemble", "ens1")]⟩ :
        TSArr) =
      ⟨[1, 2, 3, 4], .floats [0, 1/12, 2/12, 3/12], [("ensemble", "ens1")]⟩ := by
  have hl : remove_seasonality_list rfftStub irfftStub
      [⟨[1, 2, 3, 4], .floats [0, 1/12, 2/12, 3/12], [("ensemble", "ens1")]⟩]
      3 1 =
      .ok ([⟨[0, 0, 0, 0], .floats [0, 1/12, 2/12, 3/12], [("ensemble", "ens1")]⟩],
        [⟨[0, 0, 0, 0], .floats [0, 1/12, 2/12, 3/12],
          [("ensemble", "ens1")]⟩]) := rfl
  have hs : remove_seasonality_single rfftStub irfftStub
      ⟨[1, 2, 3, 4], .floats [0, 1/12, 2/12, 3/12], [("ensemble", "ens1")]⟩ 3 1 =
      .ok (⟨[0, 0, 0, 0], .floats [0, 1/12, 2/12, 3/12], [("ensemble", "ens1")]⟩,
        ⟨[1, 2, 3, 4], .floats [0, 1/12, 2/12, 3/12],
          [("ensemble", "ens1")]⟩) := rfl
  exact seasonality_aliasing rfftStub irfftStub 3 1 _ _ _ _ _ _ hl hs

/-- Claim C10.  A calendar-date time axis with fewer than twelve samples makes
the Fourier filter fail with the out-of-bounds `IndexError` (positions 10 and
11 are read unconditionally), for any transforms, data, attributes and filter
parameters; and the `TypeError` (the spec's UnsupportedTimeAxis condition) is
raised only when the time-axis element type is neither floating-point nor a
calendar date. -/
theorem seasonality_short_date_axis_index_error (ts : List ℤ)
    (h1 : 0 < ts.length) (h2 : ts.length < 12) :
    (∀ (rfft : List ℚ → List (ℚ × ℚ)) (irfft : List (ℚ × ℚ) → List ℚ)
        (data : List ℚ) (attrs : List (String × String)) (freq radius : ℚ),
      remove_seasonality_fourier rfft irfft ⟨data, .dates ts, attrs⟩ freq radius =
        .error .indexError) ∧
    (∀ t : TimeAxis, sampleSpacing t = .error .typeError →
      ∃ n, 0 < n ∧ t = .unsupported n) := by
  constructor
  · intro rfft irfft data attrs freq radius
    have hss : sampleSpacing (.dates ts) = .error .indexError := by
      cases ts with
      | nil => simp at h1
      | cons a ts2 =>
        have hlen : ts2.length + 1 < 12 := by simpa using h2
        have h11 : ts2[10]? = none := List.getElem?_eq_none (by omega)
        rcases h10 : ts2[9]? with _ | x <;>
          simp [sampleSpacing, h10, h11]
    simp only [remove_seasonality_fourier, hss]
  · intro t ht
    cases t with
    | floats ts2 =>
      exfalso
      simp only [sampleSpacing] at ht
      split at ht <;> simp_all
    | dates ts2 =>
      exfalso
      simp only [sampleSpacing] at ht
      split at ht
      · simp_all
      · split at ht <;> simp_all
    | unsupported n =>
      simp only [sampleSpacing] at ht
      split at ht
      · simp_all
      · rename_i hn
        exact ⟨n, Nat.pos_of_ne_zero hn, rfl⟩

/-- Claim C10, witness: a one-sample calendar axis is enough — the filter
fails with the `IndexError`, not the `TypeError`. -/
theorem seasonality_short_date_axis_index_error_witness :
    (0 < ([0] : List ℤ).length ∧ ([0] : List ℤ).length < 12) ∧
    ((∀ (rfft : List ℚ → List (ℚ × ℚ)) (irfft : List (ℚ × ℚ) → List ℚ)
        (data : List ℚ) (attrs : List (String × String)) (freq radius : ℚ),
      remove_seasonality_fourier rfft irfft ⟨data, .dates [0], attrs⟩ freq radius =
        .error .indexError) ∧
    (∀ t : TimeAxis, sampleSpacing t = .error .typeError →
      ∃ n, 0 < n ∧ t = .unsupported n)) :=
  ⟨⟨by decide, by decide⟩,
    seasonality_short_date_axis_index_error [0] (by decide) (by decide)⟩

/- ----------------------------------------------------------------------
Aligner: `shift_arrays` (time_series.py lines 12-80).
---------------------------------------------------------------------- -/

/-- Exceptions `shift_arrays` can raise: the `ValueError` of the
weighted-ends validation (the spec's InvalidParameter), a `KeyError` from a
missing "ensemble" attribute, an `IndexError` from reading `time.data[0]` of
an empty time axis. -/
inductive ShiftError where
  | invalidParameter : ShiftError
  | keyError : ShiftError
  | indexError : ShiftError
deriving DecidableEq, Repr

/-- Whether the elements of an array's time axis are Python floats (xarray
keeps the coordinate values; the element type decides the dropna branch). -/
inductive TKind where
  | tfloat : TKind
  | tdate : TKind
  | tother : TKind
deriving DecidableEq, Repr

/-- A labeled array as the Aligner sees it: the time coordinate values (a
calendar date is represented by a numeric timestamp), the element kind of the
time axis, the data (NaN as `none`) and the attribute map. -/
structure ShArr where
  timeKind : TKind
  time : List ℚ
  data : List (Option ℚ)
  attrs : List (String × String)
deriving DecidableEq, Repr

/-- Python dict read `attrs[k]`: the value, or a `KeyError` when absent. -/
def lookupAttr (attrs : List (String × String)) (k : String) : Option String :=
  (attrs.find? (fun p => p.1 == k)).map Prod.snd

/-- time_series.py lines 53-74: the ensemble-tag dispatch.  The five
recognized tags map to day counts (daily data) or month counts (monthly
data); anything else prints a warning and shifts by zero.  The `Bool` is true
exactly when the warning is printed. -/
def ensShift (c : String) (daily : Bool) : ℕ × Bool :=
  if c = "ens1" then (0, false)
  else if c = "ens2" then (if daily then 89 else 3, false)
  else if c = "ens3" then (if daily then 181 else 6, false)
  else if c = "ens4" then (if daily then 273 else 9, false)
  else if c = "ens5" then (if daily then 365 else 12, false)
  else (0, true)

/-- `xarray.DataArray.shift(time = s)`: data moves by `s` along the axis,
vacated positions become NaN; the coordinate values are untouched. -/
def npShift (data : List (Option ℚ)) (s : ℤ) : List (Option ℚ) :=
  (List.range data.length).map (fun i : ℕ =>
    if 0 ≤ (i : ℤ) - s ∧ (i : ℤ) - s < (data.length : ℤ)
    then data.getD ((i : ℤ) - s).toNat none
    else none)

/-- `dropna("time")` on a 1-D array: positions whose datum is NaN are removed
together with their time coordinates. -/
def dropnaTime (time : List ℚ) (data : List (Option ℚ)) :
    List ℚ × List (Option ℚ) :=
  let kept := (time.zip data).filter (fun p => p.2.isSome)
  (kept.map Prod.fst, kept.map Prod.snd)

/-- The loop body of time_series.py lines 51-79 for one array: read the
ensemble tag (from the attribute map, or the caller-supplied override),
dispatch the shift, override it with a nonzero `custom`, then shift by the
negated amount; float time axes additionally drop the NaN positions.  The
`Bool` is the unrecognized-tag warning. -/
def shiftOne (arr : ShArr) (ens : Option String) (daily : Bool) (custom : ℤ) :
    Except ShiftError (ShArr × Bool) :=
  let case0 : Except ShiftError String :=
    match ens with
    | some e => .ok e
    | none =>
      match lookupAttr arr.attrs "ensemble" with
      | some v => .ok v
      | none => .error .keyError
  match case0 with
  | .error e => .error e
  | .ok c =>
    let sw := ensShift c daily
    let shift : ℤ := if custom = 0 then (sw.1 : ℤ) else custom
    match arr.time.get? 0 with
    | none => .error .indexError
    | some _ =>
      if arr.timeKind = .tfloat then
        let d := npShift arr.data (-shift)
        let td := dropnaTime arr.time d
        .ok ({ arr with time := td.1, data := td.2 }, sw.2)
      else
        .ok ({ arr with data := npShift arr.data (-shift) }, sw.2)

/-- Sequential mapping over a batch in the `Except` monad, aborting on the
first exception, as the Python `for` loop does. -/
def mapE {α β ε : Type} (f : α → Except ε β) : List α → Except ε (List β)
  | [] => .ok []
  | a :: l =>
    match f a with
    | .error e => .error e
    | .ok b =>
      match mapE f l with
      | .error e => .error e
      | .ok bs => .ok (b :: bs)

/-- The time coordinates shared by every array of the batch, in the first
array's order: the inner join `xr.align` performs. -/
def interCoords : List (List ℚ) → List ℚ
  | [] => []
  | t :: rest => t.filter (fun x => rest.all (fun t2 => t2.contains x))

/-- Reindex one array onto the common coordinates: each common coordinate
keeps the value the array held at that coordinate. -/
def reindexTo (arr : ShArr) (common : List ℚ) : ShArr :=
  { arr with
    time := common
    data := common.map (fun t =>
      match arr.time.findIdx? (fun x => x == t) with
      | some i => arr.data.getD i none
      | none => none) }

/-- time_series.py lines 12-80, `shift_arrays`: validate the weighting
factor, shift every array by its ensemble's offset (or the custom one), then
inner-join all time axes.  Second component: the per-array unrecognized-tag
warnings. -/
def shift_arrays (arrays : List ShArr) (weighted_ends : ℚ) (ens : Option String)
    (daily : Bool) (custom : ℤ) : Except ShiftError (List ShArr × List Bool) :=
  if weighted_ends < 0 ∨ 1 < weighted_ends then .error .invalidParameter
  else
    match mapE (fun arr => shiftOne arr ens daily custom) arrays with
    | .error e => .error e
    | .ok results =>
      let shifted := results.map Prod.fst
      let common := interCoords (shifted.map ShArr.time)
      .ok (shifted.map (fun a => reindexTo a common), results.map Prod.snd)

/-- The ensemble-to-shift table as the specification states it (section 4.1):
identifier `k` shifts by the listed day count for daily data and month count
for monthly data; anything unrecognized shifts by zero. -/
def specShiftTable (c : String) (daily : Bool) : ℕ :=
  if c = "ens1" then 0
  else if c = "ens2" then (if daily then 89 else 3)
  else if c = "ens3" then (if daily then 181 else 6)
  else if c = "ens4" then (if daily then 273 else 9)
  else if c = "ens5" then (if daily then 365 else 12)
  else 0

/-- The five ensemble identifiers the specification recognizes. -/
def recognizedEns (c : String) : Bool :=
  c == "ens1" || c == "ens2" || c == "ens3" || c == "ens4" || c == "ens5"

example :
    shift_arrays [⟨.tdate, [0, 1], [some 1, some 2], [("ensemble", "ens1")]⟩,
        ⟨.tdate, [0, 1], [some 3, some 4], [("ensemble", "ens1")]⟩] 1 none true 0 =
      .ok ([⟨.tdate, [0, 1], [some 1, some 2], [("ensemble", "ens1")]⟩,
        ⟨.tdate, [0, 1], [some 3, some 4], [("ensemble", "ens1")]⟩],
        [false, false]) := rfl

/- ----------------------------------------------------------------------
Facts about the Aligner, leading to the claim C5-C8 theorems.
---------------------------------------------------------------------- -/

lemma npShift_length (data : List (Option ℚ)) (s : ℤ) :
    (npShift data s).length = data.length := by
  simp [npShift]

/-- A backward roll by `s` steps: position `i` receives the datum from
position `i + s`, or NaN when that falls off the end. -/
lemma npShift_neg_getD (data : List (Option ℚ)) (s i : ℕ) (hi : i < data.length) :
    (npShift data (-(s : ℤ))).getD i none =
      if i + s < data.length then data.getD (i + s) none else none := by
  rw [List.getD_eq_getElem?_getD]
  simp only [npShift, List.getElem?_map, List.getElem?_range hi, Option.map_some',
    Option.getD_some]
  have harith : (i : ℤ) - -(s : ℤ) = ((i + s : ℕ) : ℤ) := by push_cast; ring
  rw [harith]
  by_cases h : i + s < data.length
  · rw [if_pos ⟨by positivity, by exact_mod_cast h⟩, if_pos h, Int.toNat_natCast]
  · rw [if_neg (fun hc => h (by exact_mod_cast hc.2)), if_neg h]

/-- The tag dispatch of the source agrees with the specification's table, and
warns exactly on unrecognized tags. -/
lemma ensShift_eq_spec (c : String) (daily : Bool) :
    ensShift c daily = (specShiftTable c daily, !(recognizedEns c)) := by
  unfold ensShift specShiftTable recognizedEns
  split_ifs <;> simp_all

lemma mapE_ok_length {α β ε : Type} (f : α → Except ε β) :
    ∀ (l : List α) (res : List β), mapE f l = .ok res → res.length = l.length := by
  intro l
  induction l with
  | nil =>
    intro res h
    simp only [mapE, Except.ok.injEq] at h
    rw [← h]
    rfl
  | cons a t ih =>
    intro res h
    simp only [mapE] at h
    split at h
    · simp at h
    · split at h
      · simp at h
      · rename_i hbs
        simp only [Except.ok.injEq] at h
        rw [← h]
        simp only [List.length_cons]
        rename_i b hb bs
        rw [ih bs hbs]

lemma mapE_error_mem {α β ε : Type} (f : α → Except ε β) :
    ∀ (l : List α) (e : ε), mapE f l = .error e → ∃ a ∈ l, f a = .error e := by
  intro l
  induction l with
  | nil =>
    intro e h
    simp [mapE] at h
  | cons a t ih =>
    intro e h
    simp only [mapE] at h
    split at h
    · rename_i e2 he2
      simp only [Except.error.injEq] at h
      subst h
      exact ⟨a, List.mem_cons_self _ _, he2⟩
    · split at h
      · rename_i he2
        simp only [Except.error.injEq] at h
        subst h
        obtain ⟨x, hx, hfx⟩ := ih _ he2
        exact ⟨x, List.mem_cons_of_mem _ hx, hfx⟩
      · simp at h

/-- The per-array loop body never raises the weighting validation error. -/
lemma shiftOne_ne_invalid (arr : ShArr) (ens : Option String) (daily : Bool)
    (custom : ℤ) : shiftOne arr ens daily custom ≠ .error .invalidParameter := by
  intro h
  cases ens with
  | some e0 =>
    simp only [shiftOne] at h
    split at h
    · simp_all
    · split at h <;> simp_all
  | none =>
    cases hl : lookupAttr arr.attrs "ensemble" with
    | none => simp [shiftOne, hl] at h
    | some v =>
      simp only [shiftOne, hl] at h
      split at h
      · simp_all
      · split at h <;> simp_all

/-- With the ensemble tag present, a nonempty time axis and no custom shift,
the loop body reduces to a backward roll by the specification table's amount
(plus the dropna trim on float axes), with the warning exactly on
unrecognized tags. -/
lemma shiftOne_reduce (arr : ShArr) (daily : Bool) (c : String)
    (hens : lookupAttr arr.attrs "ensemble" = some c)
    (t0 : ℚ) (ht0 : arr.time.get? 0 = some t0) :
    shiftOne arr none daily 0 =
      (if arr.timeKind = .tfloat then
        .ok ({ arr with
          time := (dropnaTime arr.time
            (npShift arr.data (-(specShiftTable c daily : ℤ)))).1,
          data := (dropnaTime arr.time
            (npShift arr.data (-(specShiftTable c daily : ℤ)))).2 },
          !(recognizedEns c))
      else
        .ok ({ arr with data := npShift arr.data (-(specShiftTable c daily : ℤ)) },
          !(recognizedEns c))) := by
  simp only [shiftOne, hens, ht0, ensShift_eq_spec]
  norm_num

/-- Claim C5.  For an array whose attribute map carries the ensemble tag and
whose time axis is nonempty, with no custom shift, `shiftOne` applies exactly
the specification's table of shifts along the time axis (observed pointwise on
a calendar-date axis: position `i` receives the datum from `i + shift`, the
vacated tail becomes NaN; a float axis additionally trims the NaN positions),
the unrecognized-tag warning is raised exactly for tags outside the five
recognized ones, and no exception is raised. -/
theorem shift_table_correct (arr : ShArr) (daily : Bool) (c : String)
    (hens : lookupAttr arr.attrs "ensemble" = some c)
    (ht : 0 < arr.time.length) :
    ∃ r, shiftOne arr none daily 0 = .ok (r, !(recognizedEns c)) ∧
      (arr.timeKind ≠ .tfloat →
        r.time = arr.time ∧ r.attrs = arr.attrs ∧
        r.data.length = arr.data.length ∧
        ∀ i, i < arr.data.length →
          r.data.getD i none =
            (if i + specShiftTable c daily < arr.data.length
             then arr.data.getD (i + specShiftTable c daily) none
             else none)) ∧
      (arr.timeKind = .tfloat →
        r = { arr with
              time := (dropnaTime arr.time
                (npShift arr.data (-(specShiftTable c daily : ℤ)))).1,
              data := (dropnaTime arr.time
                (npShift arr.data (-(specShiftTable c daily : ℤ)))).2 }) := by
  obtain ⟨t0, ht0⟩ : ∃ t0, arr.time.get? 0 = some t0 := by
    cases h : arr.time.get? 0 with
    | none =>
      rw [List.get?_eq_none] at h
      omega
    | some t0 => exact ⟨t0, rfl⟩
  rw [shiftOne_reduce arr daily c hens t0 ht0]
  by_cases hk : arr.timeKind = .tfloat
  · rw [if_pos hk]
    refine ⟨_, rfl, fun hcon => absurd hk hcon, fun _ => rfl⟩
  · rw [if_neg hk]
    refine ⟨_, rfl, fun _ => ⟨rfl, rfl, npShift_length _ _, ?_⟩,
      fun hcon => absurd hcon hk⟩
    intro i hi
    exact npShift_neg_getD arr.data (specShiftTable c daily) i hi

/-- Claim C5, witness: a monthly `ens2` array on a calendar-date axis is
shifted three steps back, with no warning and no exception. -/
theorem shift_table_correct_witness :
    (lookupAttr [("ensemble", "ens2")] "ensemble" = some "ens2" ∧
      0 < ([0, 1, 2, 3] : List ℚ).length) ∧
    (∃ r, shiftOne ⟨.tdate, [0, 1, 2, 3],
        [some 1, some 2, some 3, some 4], [("ensemble", "ens2")]⟩ none false 0 =
        .ok (r, !(recognizedEns "ens2")) ∧
      ((⟨.tdate, [0, 1, 2, 3], [some 1, some 2, some 3, some 4],
          [("ensemble", "ens2")]⟩ : ShArr).timeKind ≠ .tfloat →
        r.time = (⟨.tdate, [0, 1, 2, 3], [some 1, some 2, some 3, some 4],
          [("ensemble", "ens2")]⟩ : ShArr).time ∧
        r.attrs = (⟨.tdate, [0, 1, 2, 3], [some 1, some 2, some 3, some 4],
          [("ensemble", "ens2")]⟩ : ShArr).attrs ∧
        r.data.length = (⟨.tdate, [0, 1, 2, 3], [some 1, some 2, some 3, some 4],
          [("ensemble", "ens2")]⟩ : ShArr).data.length ∧
        ∀ i, i < (⟨.tdate, [0, 1, 2, 3], [some 1, some 2, some 3, some 4],
            [("ensemble", "ens2")]⟩ : ShArr).data.length →
          r.data.getD i none =
            (if i + specShiftTable "ens2" false <
                (⟨.tdate, [0, 1, 2, 3], [some 1, some 2, some 3, some 4],
                  [("ensemble", "ens2")]⟩ : ShArr).data.length
             then (⟨.tdate, [0, 1, 2, 3], [some 1, some 2, some 3, some 4],
               [("ensemble", "ens2")]⟩ : ShArr).data.getD
                 (i + specShiftTable "ens2" false) none
             else none)) ∧
      ((⟨.tdate, [0, 1, 2, 3], [some 1, some 2, some 3, some 4],
          [("ensemble", "ens2")]⟩ : ShArr).timeKind = .tfloat →
        r = { (⟨.tdate, [0, 1, 2, 3], [some 1, some 2, some 3, some 4],
            [("ensemble", "ens2")]⟩ : ShArr) with
          time := (dropnaTime [0, 1, 2, 3]
            (npShift [some 1, some 2, some 3, some 4]
              (-(specShiftTable "ens2" false : ℤ)))).1,
          data := (dropnaTime [0, 1, 2, 3]
            (npShift [some 1, some 2, some 3, some 4]
              (-(specShiftTable "ens2" false : ℤ)))).2 })) :=
  ⟨⟨rfl, by decide⟩,
    shift_table_correct
      ⟨.tdate, [0, 1, 2, 3], [some 1, some 2, some 3, some 4],
        [("ensemble", "ens2")]⟩ false "ens2" rfl (by decide)⟩

/-- Claim C6.  Whenever `shift_arrays` returns, the returned sequence has the
length of the input sequence and all returned arrays carry the same time-axis
coordinate sequence (the common coordinates of the inner join). -/
theorem shift_arrays_align_consistent (arrays : List ShArr) (w : ℚ)
    (ens : Option String) (daily : Bool) (custom : ℤ)
    (out : List ShArr) (warns : List Bool)
    (_hbatch : 2 ≤ arrays.length)
    (hok : shift_arrays arrays w ens daily custom = .ok (out, warns)) :
    out.length = arrays.length ∧
    ∀ x ∈ out, ∀ y ∈ out, x.time = y.time := by
  simp only [shift_arrays] at hok
  split at hok
  · simp at hok
  · split at hok
    · simp at hok
    · rename_i results hres
      simp only [Except.ok.injEq, Prod.mk.injEq] at hok
      rcases hok with ⟨ho, -⟩
      constructor
      · rw [← ho, List.length_map, List.length_map,
          mapE_ok_length _ arrays results hres]
      · intro x hx y hy
        rw [← ho] at hx hy
        obtain ⟨x0, -, rfl⟩ := List.mem_map.mp hx
        obtain ⟨y0, -, rfl⟩ := List.mem_map.mp hy
        rfl

/-- Claim C6, witness: two aligned `ens1` arrays come back with the same
length and identical time axes. -/
theorem shift_arrays_align_consistent_witness :
    2 ≤ ([⟨.tdate, [0, 1], [some 1, some 2], [("ensemble", "ens1")]⟩,
      ⟨.tdate, [0, 1], [some 3, some 4], [("ensemble", "ens1")]⟩] :
        List ShArr).length ∧
    (([⟨.tdate, [0, 1], [some 1, some 2], [("ensemble", "ens1")]⟩,
        ⟨.tdate, [0, 1], [some 3, some 4], [("ensemble", "ens1")]⟩] :
          List ShArr).length =
      ([⟨.tdate, [0, 1], [some 1, some 2], [("ensemble", "ens1")]⟩,
        ⟨.tdate, [0, 1], [some 3, some 4], [("ensemble", "ens1")]⟩] :
          List ShArr).length ∧
      ∀ x ∈ ([⟨.tdate, [0, 1], [some 1, some 2], [("ensemble", "ens1")]⟩,
          ⟨.tdate, [0, 1], [some 3, some 4], [("ensemble", "ens1")]⟩] :
            List ShArr),
        ∀ y ∈ ([⟨.tdate, [0, 1], [some 1, some 2], [("ensemble", "ens1")]⟩,
            ⟨.tdate, [0, 1], [some 3, some 4], [("ensemble", "ens1")]⟩] :
              List ShArr),
          x.time = y.time) := by
  have hok : shift_arrays
      [⟨.tdate, [0, 1], [some 1, some 2], [("ensemble", "ens1")]⟩,
        ⟨.tdate, [0, 1], [some 3, some 4], [("ensemble", "ens1")]⟩] 1 none true 0 =
      .ok ([⟨.tdate, [0, 1], [some 1, some 2], [("ensemble", "ens1")]⟩,
        ⟨.tdate, [0, 1], [some 3, some 4], [("ensemble", "ens1")]⟩],
        [false, false]) := rfl
  exact ⟨by decide,
    shift_arrays_align_consistent _ 1 none true 0 _ _ (by decide) hok⟩

/-- Claim C7.  `shift_arrays` raises the weighting validation error exactly
when the factor lies outside `[0, 1]`; the check precedes the loop and does
not depend on the arrays (the statement holds for every batch), and an
in-range factor can never produce that error. -/
theorem shift_arrays_invalid_parameter_iff (arrays : List ShArr) (w : ℚ)
    (ens : Option String) (daily : Bool) (custom : ℤ) :
    (w < 0 ∨ 1 < w) ↔
      shift_arrays arrays w ens daily custom = .error .invalidParameter := by
  constructor
  · intro h
    simp only [shift_arrays]
    rw [if_pos h]
  · intro h
    by_contra hno
    simp only [shift_arrays] at h
    rw [if_neg hno] at h
    split at h
    · rename_i e he
      simp only [Except.error.injEq] at h
      subst h
      obtain ⟨a, -, hfa⟩ := mapE_error_mem _ arrays _ he
      exact shiftOne_ne_invalid a ens daily custom hfa
    · simp at h

/-- Claim C8.  Two calls differing only in an in-range weighting factor return
identical results: the validated parameter never influences the data. -/
theorem shift_arrays_weight_noninterference (arrays : List ShArr)
    (ens : Option String) (daily : Bool) (custom : ℤ) (a b : ℚ)
    (ha : 0 ≤ a ∧ a ≤ 1) (hb : 0 ≤ b ∧ b ≤ 1) :
    shift_arrays arrays a ens daily custom =
      shift_arrays arrays b ens daily custom := by
  have hna : ¬(a < 0 ∨ 1 < a) := by
    rcases ha with ⟨h1, h2⟩
    rintro (h | h) <;> linarith
  have hnb : ¬(b < 0 ∨ 1 < b) := by
    rcases hb with ⟨h1, h2⟩
    rintro (h | h) <;> linarith
  simp only [shift_arrays]
  rw [if_neg hna, if_neg hnb]

/-- Claim C8, witness: the two endpoint factors 0 and 1 give the same result
on a concrete batch. -/
theorem shift_arrays_weight_noninterference_witness :
    ((0 : ℚ) ≤ 0 ∧ (0 : ℚ) ≤ 1) ∧ ((0 : ℚ) ≤ 1 ∧ (1 : ℚ) ≤ 1) ∧
    shift_arrays [⟨.tdate, [0, 1], [some 1, some 2], [("ensemble", "ens1")]⟩]
        0 none true 0 =
      shift_arrays [⟨.tdate, [0, 1], [some 1, some 2], [("ensemble", "ens1")]⟩]
        1 none true 0 :=
  ⟨⟨by decide, by decide⟩, ⟨by decide, by decide⟩,
    shift_arrays_weight_noninterference _ none true 0 0 1
      ⟨by decide, by decide⟩ ⟨by decide, by decide⟩⟩

/- ----------------------------------------------------------------------
Spatial reducer: `mean_flatten` (time_series.py lines 83-155).
---------------------------------------------------------------------- -/

/-- An N-dimensional labeled array as the reducer sees it: named axes with
their coordinate values, the data flattened in row-major order, and the
attribute map. -/
structure XArr where
  dims : List String
  coords : List (List ℚ)
  data : List ℚ
  attrs : List (String × String)
deriving DecidableEq, Repr

/-- Row-major strides: the number of cells per step of the leading axis. -/
def prodL : List ℕ → ℕ
  | [] => 1
  | n :: rest => n * prodL rest

/-- All multi-indices of a shape, in row-major order. -/
def multiIndices : List ℕ → List (List ℕ)
  | [] => [[]]
  | n :: rest => (List.range n).flatMap (fun i => (multiIndices rest).map (i :: ·))

/-- Row-major flat offset of a multi-index. -/
def flatIdx : List ℕ → List ℕ → ℕ
  | _ :: srest, i :: irest => i * prodL srest + flatIdx srest irest
  | _, _ => 0

/-- The shape of an array: one extent per axis. -/
def XArr.shape (a : XArr) : List ℕ := a.coords.map List.length

/-- The cell of an array at a multi-index. -/
def XArr.cell (a : XArr) (mi : List ℕ) : ℚ :=
  a.data.getD (flatIdx a.shape mi) 0

/-- Keep the entries of a list whose mask bit is true. -/
def selectB {α : Type} (mask : List Bool) (l : List α) : List α :=
  ((mask.zip l).filter (fun p => p.1)).map Prod.snd

/-- Interleave the indices of the kept axes and of the dropped axes back into
a full multi-index, following the mask. -/
def mergeIdx : List Bool → List ℕ → List ℕ → List ℕ
  | [], _, _ => []
  | true :: m, k :: ks, ds => k :: mergeIdx m ks ds
  | true :: m, [], ds => 0 :: mergeIdx m [] ds
  | false :: m, ks, d :: ds => d :: mergeIdx m ks ds
  | false :: m, ks, [] => 0 :: mergeIdx m ks []

/-- Arithmetic mean of a list of values (0 for an empty list). -/
def listMean (l : List ℚ) : ℚ :=
  if l.length = 0 then 0 else l.sum / (l.length : ℚ)

/-- `xarray.DataArray.mean(dim = ds)`: the named axes are averaged out with
equal weights; a name that is not an axis raises; the result carries no
attributes (xarray reductions drop `attrs` unless `keep_attrs` is set, and
this code never sets it). -/
def XArr.mean (a : XArr) (ds : List String) : Except String XArr :=
  if ds.all (fun d => a.dims.contains d) then
    let mask := a.dims.map (fun d => !(ds.contains d))
    let keptShape := selectB mask a.shape
    let dropShape := selectB (mask.map (!·)) a.shape
    .ok { dims := selectB mask a.dims
          coords := selectB mask a.coords
          data := (multiIndices keptShape).map (fun ki =>
            listMean ((multiIndices dropShape).map (fun di =>
              a.cell (mergeIdx mask ki di))))
          attrs := [] }
  else .error "DimensionError"

/-- time_series.py lines 83-88, `_latitude_mean`: a cosine-of-latitude
weighted mean over the latitude axis.  The weight function (`np.cos` of the
latitude in radians in the source) is transcendental, so it enters as the
parameter `w`; like every xarray reduction, the result carries no attributes. -/
def XArr.weightedMean (a : XArr) (lat : String) (w : ℚ → ℚ) : Except String XArr :=
  match a.dims.findIdx? (fun d => d == lat) with
  | none => .error "AttributeError"
  | some j =>
    let latCoords := a.coords.getD j []
    let mask := a.dims.map (fun d => !(d == lat))
    let keptShape := selectB mask a.shape
    .ok { dims := selectB mask a.dims
          coords := selectB mask a.coords
          data := (multiIndices keptShape).map (fun ki =>
            (latCoords.enum.map (fun p =>
              w p.2 * a.cell (mergeIdx mask ki [p.1]))).sum /
            (latCoords.map w).sum)
          attrs := [] }

/-- Python dict update, as `assign_attrs` performs it: new keys override,
everything else is kept. -/
def mergeAttrs (old new : List (String × String)) : List (String × String) :=
  old.filter (fun p => !(new.any (fun q => q.1 == p.1))) ++ new

/-- `DataArray.assign_attrs`: a copy of the array with the attribute update
applied. -/
def XArr.assign_attrs (a : XArr) (new : List (String × String)) : XArr :=
  { a with attrs := mergeAttrs a.attrs new }

/-- time_series.py lines 125-134: resolve the default reduction axes and pull
the latitude axis out of the list with `dims.remove(lat)` — an in-place
mutation of the caller's list when one was passed.  Returns (the reduction
axes, whether latitude is handled specially, the final state of the caller's
list object). -/
def processDims (dimsArg : Option (List String)) (lat : String) :
    List String × Bool × List String :=
  let dims0 := dimsArg.getD ["lon", "time"]
  if lat ∈ dims0 then (dims0.erase lat, true, dims0.erase lat)
  else (dims0, false, dims0)

/-- time_series.py lines 135-142, the single-array path of `mean_flatten`:
weighted latitude mean (restoring the input's attributes), then the plain
mean, then `arrays.assign_attrs(arrays.attrs)` — which re-assigns the
already-reduced array's own attributes, not the input's.  Second component:
the final state of the caller's `dims` list. -/
def mean_flatten_single (arr : XArr) (dimsArg : Option (List String))
    (lat : String) (w : ℚ → ℚ) : Except String XArr × List String :=
  let p := processDims dimsArg lat
  let step1 : Except String XArr :=
    if p.2.1 then
      match arr.weightedMean lat w with
      | .ok t => .ok (t.assign_attrs arr.attrs)
      | .error e => .error e
    else .ok arr
  let res : Except String XArr :=
    match step1 with
    | .error e => .error e
    | .ok base =>
      match base.mean p.1 with
      | .error e => .error e
      | .ok reduced => .ok (reduced.assign_attrs reduced.attrs)
  (res, p.2.2)

/-- The loop body of time_series.py lines 144-154 for one array of the list
path: as the single path, except that the final `assign_attrs` re-assigns the
pre-reduction attributes (`arr_.attrs`), which carry the input's. -/
def flattenOne (dims : List String) (lat : String) (w : ℚ → ℚ) (inc : Bool)
    (arr : XArr) : Except String XArr :=
  let arr2 : Except String XArr :=
    if inc then
      match arr.weightedMean lat w with
      | .ok t => .ok (t.assign_attrs arr.attrs)
      | .error e => .error e
    else .ok arr
  match arr2 with
  | .error e => .error e
  | .ok a2 =>
    match a2.mean dims with
    | .error e => .error e
    | .ok reduced => .ok (reduced.assign_attrs a2.attrs)

/-- time_series.py lines 143-155, the list path of `mean_flatten`.  Second
component: the final state of the caller's `dims` list. -/
def mean_flatten_list (arrs : List XArr) (dimsArg : Option (List String))
    (lat : String) (w : ℚ → ℚ) : Except String (List XArr) × List String :=
  let p := processDims dimsArg lat
  (mapE (flattenOne p.1 lat w p.2.1) arrs, p.2.2)

example :
    (mean_flatten_single ⟨["lon"], [[0, 1]], [1, 2], [("ensemble", "ens1")]⟩
        (some ["lon"]) "lat" (fun _ => 1)).1 =
      .ok ⟨[], [], [3/2], []⟩ := rfl

example :
    (mean_flatten_list [⟨["lon"], [[0, 1]], [1, 2], [("ensemble", "ens1")]⟩]
        (some ["lon"]) "lat" (fun _ => 1)).1 =
      .ok [⟨[], [], [3/2], [("ensemble", "ens1")]⟩] := rfl

/-- Claim C1, the failing input evaluated.  The list path of `mean_flatten`
preserves the input's attribute map, but the single-array path returns an
array with an empty attribute map: after `arrays.mean(dim = dims)` has
already dropped the attributes, line 141 re-assigns the reduced array's own
(empty) attributes instead of the saved input attributes that the list path
(line 152) uses.  The same happens when latitude is among the reduction axes
(third conjunct). -/
theorem mean_flatten_single_drops_attrs :
    (mean_flatten_single ⟨["lon"], [[0, 1]], [1, 2], [("ensemble", "ens1")]⟩
        (some ["lon"]) "lat" (fun _ => 1)).1 =
      .ok ⟨[], [], [3/2], []⟩ ∧
    (mean_flatten_list [⟨["lon"], [[0, 1]], [1, 2], [("ensemble", "ens1")]⟩]
        (some ["lon"]) "lat" (fun _ => 1)).1 =
      .ok [⟨[], [], [3/2], [("ensemble", "ens1")]⟩] ∧
    (mean_flatten_single ⟨["lat"], [[0, 1]], [1, 2], [("ensemble", "ens1")]⟩
        (some ["lat"]) "lat" (fun _ => 1)).1 =
      .ok ⟨[], [], [3/2], []⟩ ∧
    (⟨["lon"], [[0, 1]], [1, 2], [("ensemble", "ens1")]⟩ : XArr).attrs =
      [("ensemble", "ens1")] :=
  ⟨rfl, rfl, rfl, rfl⟩

/-- Claim C9.  When the caller passes a `dims` list containing the latitude
axis name, `mean_flatten` removes that name from the caller's own list (the
in-place `dims.remove(lat)`), in both the single-array and the list path: the
list's final state is `dims.erase lat`, one element shorter, and — when the
name occurred once, as usual — a later call with the same list object no
longer requests latitude reduction. -/
theorem mean_flatten_mutates_dims (dims : List String) (lat : String)
    (h : lat ∈ dims) (arr : XArr) (arrs : List XArr) (w : ℚ → ℚ) :
    (mean_flatten_single arr (some dims) lat w).2 = dims.erase lat ∧
    (mean_flatten_list arrs (some dims) lat w).2 = dims.erase lat ∧
    (dims.erase lat).length + 1 = dims.length ∧
    (dims.count lat = 1 → lat ∉ dims.erase lat) := by
  refine ⟨?_, ?_, ?_, ?_⟩
  · simp [mean_flatten_single, processDims, h]
  · simp [mean_flatten_list, processDims, h]
  · rw [List.length_erase_of_mem h]
    have := List.length_pos_of_mem h
    omega
  · intro hc
    rw [← List.count_eq_zero, List.count_erase_self, hc]

/-- Claim C9, witness: the caller's list `["lon", "lat"]` comes back as
`["lon"]` from either path. -/
theorem mean_flatten_mutates_dims_witness :
    "lat" ∈ ["lon", "lat"] ∧
    ((mean_flatten_single ⟨[], [], [], []⟩ (some ["lon", "lat"]) "lat"
        (fun _ => 1)).2 = ["lon", "lat"].erase "lat" ∧
      (mean_flatten_list [] (some ["lon", "lat"]) "lat" (fun _ => 1)).2 =
        ["lon", "lat"].erase "lat" ∧
      (["lon", "lat"].erase "lat").length + 1 = (["lon", "lat"] : List String).length ∧
      ((["lon", "lat"] : List String).count "lat" = 1 →
        "lat" ∉ ["lon", "lat"].erase "lat")) :=
  ⟨by decide,
    mean_flatten_mutates_dims ["lon", "lat"] "lat" (by decide) ⟨[], [], [], []⟩ []
      (fun _ => 1)⟩
